import Mathlib

/-!
Shallow embedding of the author.txt DSL parser and its plugin manager.

The definitions below are translated from the TypeScript sources:
  * the parser (`parseAuthorDSL`, `validateInput`, `assignValue`,
    `parseKeyValue`, `processValue`, `handleMultilineContent`,
    `handleBlockStart`, `handleBlockEnd`, `validateParsedData`), and
  * the plugin manager (`PluginManager` with `register`, `unregister`,
    `processValue`, `validateData`, `formatData`, `beforeParse`,
    `afterParse`, `onKeyValue`, `onBlockStart`, `onBlockEnd`).

Modelling conventions:
  * JavaScript objects (`Record<string, any>`) are insertion-ordered
    association lists; `Map` is modelled the same way (both preserve
    insertion order and update values in place).
  * JavaScript values flowing through the parser are modelled by `Value`:
    strings, arrays, `{type, value}` pairs and nested documents.
  * Exceptions are modelled with `Except ParseErr`; a `DSLParseError`
    is `ParseErr.dsl`, a `PluginError` is `ParseErr.plugin`, and runtime
    `TypeError`s / plain `Error`s are `ParseErr.js`.
  * Mutable stacks (`stack`, `blockNames`) become lists with the head as
    the top (innermost) element, so the JS `stack[stack.length - 1]` is
    the head and `push`/`pop` act on the head.
  * Plugin hook functions are pure Lean functions returning
    `Except String _`; an `Except.error msg` models the hook throwing an
    exception whose message is `msg`.
  * Object identity of plugin instances (used by `indexOf` in the
    category lists) is modelled by a numeric `id` field; distinct
    `new`-ed plugin objects carry distinct ids.
-/

/-- Errors thrown by the parser and plugin manager.
`dsl` models `DSLParseError(message, lineNumber, line)`;
`plugin` models `PluginError` with plugin name, invocation-point code and
the underlying message; `js` models other JavaScript runtime errors
(plain `Error`, `TypeError`). -/
inductive ParseErr where
  | dsl (message : String) (lineNumber : Option Nat) (line : Option String)
  | plugin (pluginName : String) (code : String) (message : String)
  | js (message : String)
deriving DecidableEq

/-- JavaScript values produced by the parser: scalar strings, arrays,
`{type, value}` pairs, and nested block documents. -/
inductive Value where
  | str (s : String)
  | vlist (l : List Value)
  | typed (type : String) (value : Value)
  | doc (d : List (String × Value))

/-- A document / frame: an insertion-ordered JS object. -/
abbrev Doc := List (String × Value)

/-- `m.get(k)` / `obj[k]` on an insertion-ordered string-keyed map. -/
def jsMapGet {α : Type} : List (String × α) → String → Option α
  | [], _ => none
  | (k, v) :: rest, key => if k = key then some v else jsMapGet rest key

/-- `m.set(k, v)` / `obj[k] = v`: replace in place if the key exists
(keeping its original position), otherwise append. -/
def jsMapSet {α : Type} : List (String × α) → String → α → List (String × α)
  | [], key, v => [(key, v)]
  | (k, w) :: rest, key, v =>
    if k = key then (k, v) :: rest else (k, w) :: jsMapSet rest key v

/-- `m.delete(k)`: remove the entry for `k` (a JS `Map` holds at most
one entry per key, so dropping every binding of `k` models `delete`). -/
def jsMapDelete {α : Type} (l : List (String × α)) (key : String) :
    List (String × α) :=
  l.filter (fun e => e.1 ≠ key)

/-- JavaScript falsiness on the values the parser can store: of the
shapes in `Value`, only the empty string is falsy (arrays and objects
are always truthy). -/
def jsFalsy : Value → Bool
  | .str s => s = ""
  | _ => false

/-- The whitespace characters `\s` matches in the strings this parser
handles (lines contain no newline after splitting, and the DSL is
ASCII-oriented). -/
def isWsChar (c : Char) : Bool :=
  c = ' ' || c = '\t' || c = '\n' || c = '\r'

/-- JS `s.trim()`: drop leading and trailing whitespace.
(Implemented over the character list so that it reduces by `rfl`.) -/
def strTrim (s : String) : String :=
  String.mk (((s.toList.dropWhile isWsChar).reverse.dropWhile isWsChar).reverse)

/-- JS `s.startsWith(pre)`. -/
def strStartsWith (s pre : String) : Bool :=
  pre.toList.isPrefixOf s.toList

/-- JS `s.endsWith(suf)`. -/
def strEndsWith (s suf : String) : Bool :=
  suf.toList.reverse.isPrefixOf s.toList.reverse

/-- JS `s.slice(n)`: drop the first `n` characters. -/
def strDrop (s : String) (n : Nat) : String :=
  String.mk (s.toList.drop n)

/-- JS `s.slice(0, -n)`: drop the last `n` characters. -/
def strDropRight (s : String) (n : Nat) : String :=
  String.mk ((s.toList.reverse.drop n).reverse)

/-- JS `s.includes(c)` for a single character. -/
def strContains (s : String) (c : Char) : Bool :=
  s.toList.contains c

/-- JS `s.length`. -/
def strLength (s : String) : Nat :=
  s.toList.length

/-- JS `s.split(sep)` for a one-character separator: split at every
occurrence, keeping empty pieces. -/
def splitCharAux (sep : Char) : List Char → List Char → List String
  | [], acc => [String.mk acc.reverse]
  | c :: rest, acc =>
    if c = sep then String.mk acc.reverse :: splitCharAux sep rest []
    else splitCharAux sep rest (c :: acc)

/-- JS `s.split(sep)` for a one-character separator. -/
def strSplitOnChar (sep : Char) (s : String) : List String :=
  splitCharAux sep s.toList []

/-- JS `parts.join(sep)`. -/
def strIntercalate (sep : String) : List String → String
  | [] => ""
  | [s] => s
  | s :: rest => s ++ sep ++ strIntercalate sep rest

/-- `assignValue(obj, key, value)`:
```
if (!obj[key])                 obj[key] = value;
else if (Array.isArray(obj[key])) obj[key].push(value);
else                           obj[key] = [obj[key], value];
```
Note the first test uses JS falsiness, so a stored empty string is
overwritten rather than promoted to a list. -/
def assignValue (obj : Doc) (key : String) (value : Value) : Doc :=
  match jsMapGet obj key with
  | none => jsMapSet obj key value
  | some old =>
    if jsFalsy old then jsMapSet obj key value
    else
      match old with
      | .vlist l => jsMapSet obj key (.vlist (l ++ [value]))
      | _ => jsMapSet obj key (.vlist [old, value])

/-- `validateInput(input)`: reject inputs that are empty after trimming.
(The `typeof input !== 'string'` guard is enforced by the Lean type.) -/
def validateInput (input : String) : Except ParseErr Unit :=
  if strLength (strTrim input) = 0 then
    .error (.dsl "Input cannot be empty" none none)
  else
    .ok ()

/-- Split a character list at the first `':'` (JS `line.indexOf(":")`),
returning the parts before and after it, or `none` when absent. -/
def splitColonAux : List Char → Option (List Char × List Char)
  | [] => none
  | c :: rest =>
    if c = ':' then some ([], rest)
    else
      match splitColonAux rest with
      | none => none
      | some (l, r) => some (c :: l, r)

/-- `parseKeyValue(line, lineNumber)`: split at the first colon, trim the
key and value, reject an empty key, and extract an `@Type` annotation
(`split("@")` must yield exactly two parts and the trimmed type must be
non-empty). Returns `(key, value, type)`. -/
def parseKeyValue (line : String) (lineNumber : Nat) :
    Except ParseErr (String × String × Option String) :=
  match splitColonAux line.toList with
  | none => .error (.dsl "Invalid line format - missing colon" (some lineNumber) (some line))
  | some (l, r) =>
    let key := strTrim (String.mk l)
    let value := strTrim (String.mk r)
    if key = "" then
      .error (.dsl "Empty key not allowed" (some lineNumber) (some line))
    else if strContains key '@' then
      match strSplitOnChar '@' key with
      | [k, t] =>
        let key := strTrim k
        let type := strTrim t
        if type = "" then
          .error (.dsl "Empty type not allowed" (some lineNumber) (some line))
        else
          .ok (key, value, some type)
      | _ => .error (.dsl "Invalid type syntax - use Key@Type format" (some lineNumber) (some line))
    else
      .ok (key, value, none)

/-- `processValue(value)` (module-level value processor): strip one pair
of wrapping double quotes, then if a comma is present split on commas,
trim the parts and drop empty ones (a list), otherwise keep the string. -/
def processValue (value : String) : Value :=
  let value :=
    if strStartsWith value "\"" && strEndsWith value "\"" then
      strDropRight (strDrop value 1) 1
    else value
  if strContains value ',' then
    .vlist ((((strSplitOnChar ',' value).map strTrim).filter
      (fun v => strLength v > 0)).map Value.str)
  else
    .str value

/-- `handleMultilineContent(line, multilineBuffer)`: if the trimmed line
ends with the closing `\x22\x22\x22` marker, buffer the trimmed line
minus the marker and report the multiline as closed; otherwise buffer
the raw line. Returns `(closed, newBuffer)`. -/
def handleMultilineContent (line : String) (multilineBuffer : List String) :
    Bool × List String :=
  if strEndsWith (strTrim line) "\"\"\"" then
    (true, multilineBuffer ++ [strDropRight (strTrim line) 3])
  else
    (false, multilineBuffer ++ [line])

/-- `/^Kw\s+/i.test(line)`: a case-insensitive keyword followed by at
least one whitespace character. -/
def matchKeyword (kw : String) (line : String) : Bool :=
  let l := line.toList
  let k := kw.toList
  (l.take k.length).map Char.toLower = k.map Char.toLower &&
    match l.drop k.length with
    | c :: _ => isWsChar c
    | [] => false

/-- `line.replace(/^Kw\s+/i, "").trim()`: drop the keyword and the
greedy run of whitespace after it, then trim. (Only ever used after
`matchKeyword` has succeeded.) -/
def keywordRest (kw : String) (line : String) : String :=
  strTrim (String.mk ((line.toList.drop kw.toList.length).dropWhile isWsChar))

/-- `input.split(/\r?\n/)`: split on every `'\n'`, consuming one `'\r'`
immediately before it. -/
def splitLinesAux : List Char → List Char → List String
  | [], acc => [String.mk acc.reverse]
  | '\r' :: '\n' :: rest, acc => String.mk acc.reverse :: splitLinesAux rest []
  | '\n' :: rest, acc => String.mk acc.reverse :: splitLinesAux rest []
  | c :: rest, acc => splitLinesAux rest (c :: acc)

/-- Split an input string into lines the way `split(/\r?\n/)` does. -/
def splitLines (input : String) : List String :=
  splitLinesAux input.toList []

/-- Pair each line with its 1-based line number. -/
def numberLines : Nat → List String → List (Nat × String)
  | _, [] => []
  | n, l :: rest => (n, l) :: numberLines (n + 1) rest

/-- Plugin metadata and capability slots. Each optional hook is an
explicit `Option`; `initFn` models the optional `initialize()` method
and `destroy` the optional `destroy()` method (as possibly-failing
actions with no further state). `id` models JS object identity. -/
structure Plugin where
  id : Nat
  name : String
  supportedTypes : Option (List String)
  processValue : Option (String → String → Except String Value)
  validate : Option (Doc → Except String (List String))
  supportedFormats : Option (List String)
  format : Option (Doc → Option Value → Except String String)
  beforeParse : Option (String → Except String String)
  afterParse : Option (Doc → Except String Doc)
  onKeyValue : Option (String → Value → Except String (Option (String × Value)))
  onBlockStart : Option (String → Except String Unit)
  onBlockEnd : Option (String → Except String Unit)
  initFn : Option (Except String Unit)
  destroy : Option (Except String Unit)

/-- A plugin with no capabilities; concrete plugins are built from this
with record updates. -/
def Plugin.base : Plugin :=
  ⟨0, "", none, none, none, none, none, none, none, none, none, none, none, none⟩

/-- `PluginOptions`: only `priority` is ever read by the manager
(`enabled` and `config` are stored but never consulted). -/
structure PluginOptions where
  priority : Int
deriving DecidableEq

/-- Default options: `{ enabled: true, priority: 0, config: {} }`. -/
def PluginOptions.default : PluginOptions := ⟨0⟩

/-- `'supportedTypes' in plugin && 'processValue' in plugin` -/
def isTypePlugin (p : Plugin) : Bool :=
  p.supportedTypes.isSome && p.processValue.isSome

/-- `'validate' in plugin` -/
def isValidationPlugin (p : Plugin) : Bool :=
  p.validate.isSome

/-- `'format' in plugin && 'supportedFormats' in plugin` -/
def isFormatterPlugin (p : Plugin) : Bool :=
  p.format.isSome && p.supportedFormats.isSome

/-- any of the five parser hooks present -/
def isParserPlugin (p : Plugin) : Bool :=
  p.beforeParse.isSome || p.afterParse.isSome || p.onKeyValue.isSome ||
    p.onBlockStart.isSome || p.onBlockEnd.isSome

/-- The plugin manager state: the name-keyed plugin map and the four
per-category collections. -/
structure PluginManager where
  plugins : List (String × Plugin × PluginOptions)
  typePlugins : List (String × Plugin)
  validationPlugins : List Plugin
  formatterPlugins : List Plugin
  parserPlugins : List Plugin

/-- `new PluginManager()` -/
def PluginManager.empty : PluginManager := ⟨[], [], [], [], []⟩

/-- `this.plugins.get(name)?.options.priority || 0` -/
def PluginManager.priorityOf (m : PluginManager) (name : String) : Int :=
  match jsMapGet m.plugins name with
  | some (_, opts) => opts.priority
  | none => 0

/-- Insert a plugin into a priority-descending sorted list, after any
already-present plugin of greater or equal priority (the stable
behaviour of `Array.prototype.sort` with comparator `b - a`). -/
def insertByPriority (m : PluginManager) (x : Plugin) : List Plugin → List Plugin
  | [] => [x]
  | y :: ys =>
    if m.priorityOf x.name ≤ m.priorityOf y.name then
      y :: insertByPriority m x ys
    else
      x :: y :: ys

/-- Stable sort by priority descending (ties keep list order), the
result of `list.sort((a, b) => bPriority - aPriority)`. -/
def sortPlugins (m : PluginManager) (l : List Plugin) : List Plugin :=
  l.foldl (fun acc p => insertByPriority m p acc) []

/-- `registerTypePlugin`: `typePlugins.set(type, plugin)` for every
declared type tag. -/
def registerTypePluginAux (tp : List (String × Plugin)) (p : Plugin) :
    List (String × Plugin) :=
  (p.supportedTypes.getD []).foldl (fun acc t => jsMapSet acc t p) tp

/-- `unregisterTypePlugin`: `typePlugins.delete(type)` for every
declared type tag, regardless of which plugin currently holds the tag. -/
def unregisterTypePluginAux (tp : List (String × Plugin)) (p : Plugin) :
    List (String × Plugin) :=
  (p.supportedTypes.getD []).foldl (fun acc t => jsMapDelete acc t) tp

/-- `list.indexOf(plugin)` + `splice(index, 1)`: remove the first
element with the same object identity, if present. -/
def removeFirstById : List Plugin → Plugin → List Plugin
  | [], _ => []
  | q :: rest, p => if q.id = p.id then rest else q :: removeFirstById rest p

/-- `register(plugin, options)`: store in the name map, insert into each
matching category (validator and parser lists re-sorted by priority
descending, formatter list appended, type map keyed per tag), then run
`initialize()` if present, wrapping a failure as
`PluginError(name, INIT_FAILED)`. -/
def PluginManager.register (m : PluginManager) (p : Plugin)
    (options : PluginOptions) : Except ParseErr PluginManager :=
  let m1 := { m with plugins := jsMapSet m.plugins p.name (p, options) }
  let m2 :=
    if isTypePlugin p then
      { m1 with typePlugins := registerTypePluginAux m1.typePlugins p }
    else m1
  let m3 :=
    if isValidationPlugin p then
      { m2 with validationPlugins := sortPlugins m2 (m2.validationPlugins ++ [p]) }
    else m2
  let m4 :=
    if isFormatterPlugin p then
      { m3 with formatterPlugins := m3.formatterPlugins ++ [p] }
    else m3
  let m5 :=
    if isParserPlugin p then
      { m4 with parserPlugins := sortPlugins m4 (m4.parserPlugins ++ [p]) }
    else m4
  match p.initFn with
  | none => .ok m5
  | some (.ok _) => .ok m5
  | some (.error e) => .error (.plugin p.name "INIT_FAILED" e)

/-- `register` cannot fail for a plugin without an `initialize` hook;
this wrapper extracts the updated manager in that situation. -/
def registerOk (m : PluginManager) (p : Plugin) (options : PluginOptions) :
    PluginManager :=
  match m.register p options with
  | .ok m2 => m2
  | .error _ => m

/-- `unregister(pluginName)`: no-op when the name is unknown; otherwise
remove the stored plugin from every matching category, run `destroy()`
if present (failures are logged, never propagated), and delete the map
entry. -/
def PluginManager.unregister (m : PluginManager) (pluginName : String) :
    PluginManager :=
  match jsMapGet m.plugins pluginName with
  | none => m
  | some (p, _) =>
    let m1 :=
      if isTypePlugin p then
        { m with typePlugins := unregisterTypePluginAux m.typePlugins p }
      else m
    let m2 :=
      if isValidationPlugin p then
        { m1 with validationPlugins := removeFirstById m1.validationPlugins p }
      else m1
    let m3 :=
      if isFormatterPlugin p then
        { m2 with formatterPlugins := removeFirstById m2.formatterPlugins p }
      else m2
    let m4 :=
      if isParserPlugin p then
        { m3 with parserPlugins := removeFirstById m3.parserPlugins p }
      else m3
    { m4 with plugins := jsMapDelete m4.plugins pluginName }

/-- `isRegistered(pluginName)` -/
def PluginManager.isRegistered (m : PluginManager) (pluginName : String) : Bool :=
  (jsMapGet m.plugins pluginName).isSome

/-- `processValue(value, type, context)`: a falsy (`null` or empty) type
or an unknown type tag returns the raw value unchanged; otherwise the
matching type plugin's `processValue` result is returned, with a thrown
error wrapped as `PluginError(name, PROCESS_VALUE_FAILED)`. -/
def PluginManager.processValue (m : PluginManager) (value : String)
    (type : Option String) : Except ParseErr Value :=
  match type with
  | none => .ok (.str value)
  | some t =>
    if t = "" then .ok (.str value)
    else
      match jsMapGet m.typePlugins t with
      | none => .ok (.str value)
      | some p =>
        match p.processValue with
        | none => .error (.js "plugin.processValue is not a function")
        | some f =>
          match f value t with
          | .ok v => .ok v
          | .error e => .error (.plugin p.name "PROCESS_VALUE_FAILED" e)

/-- Loop body of `validateData`: accumulate each validator's warnings in
list order; a throwing validator aborts the whole call with
`PluginError(name, VALIDATE_DATA_FAILED)`. -/
def validateDataAux : List Plugin → Doc → List String → Except ParseErr (List String)
  | [], _, acc => .ok acc
  | p :: rest, data, acc =>
    match p.validate with
    | none => .error (.js "plugin.validate is not a function")
    | some f =>
      match f data with
      | .ok ws => validateDataAux rest data (acc ++ ws)
      | .error e => .error (.plugin p.name "VALIDATE_DATA_FAILED" e)

/-- `validateData(data)` -/
def PluginManager.validateData (m : PluginManager) (data : Doc) :
    Except ParseErr (List String) :=
  validateDataAux m.validationPlugins data []

/-- `formatData(data, format, options)`: select the first registered
formatter whose `supportedFormats` contains the tag; no match throws a
plain `Error` naming the tag; a throwing formatter is wrapped as
`PluginError(name, FORMAT_FAILED)`. -/
def PluginManager.formatData (m : PluginManager) (data : Doc) (format : String)
    (options : Option Value) : Except ParseErr String :=
  match m.formatterPlugins.find? (fun p => (p.supportedFormats.getD []).contains format) with
  | none => .error (.js ("No formatter plugin found for format: " ++ format))
  | some p =>
    match p.format with
    | none => .error (.js "plugin.format is not a function")
    | some f =>
      match f data options with
      | .ok s => .ok s
      | .error e => .error (.plugin p.name "FORMAT_FAILED" e)

/-- Loop body of `beforeParse`: thread the text through every parser
plugin implementing `beforeParse`, in list order. -/
def beforeParseAux : List Plugin → String → Except ParseErr String
  | [], input => .ok input
  | p :: rest, input =>
    match p.beforeParse with
    | none => beforeParseAux rest input
    | some f =>
      match f input with
      | .ok s => beforeParseAux rest s
      | .error e => .error (.plugin p.name "BEFORE_PARSE_FAILED" e)

/-- `beforeParse(input)` -/
def PluginManager.beforeParse (m : PluginManager) (input : String) :
    Except ParseErr String :=
  beforeParseAux m.parserPlugins input

/-- Loop body of `afterParse`: thread the document through every parser
plugin implementing `afterParse`, in list order. -/
def afterParseAux : List Plugin → Doc → Except ParseErr Doc
  | [], data => .ok data
  | p :: rest, data =>
    match p.afterParse with
    | none => afterParseAux rest data
    | some f =>
      match f data with
      | .ok d => afterParseAux rest d
      | .error e => .error (.plugin p.name "AFTER_PARSE_FAILED" e)

/-- `afterParse(data)` -/
def PluginManager.afterParse (m : PluginManager) (data : Doc) :
    Except ParseErr Doc :=
  afterParseAux m.parserPlugins data

/-- Loop body of `onKeyValue`: each hook may return a replacement
`{key, value}` pair which feeds the next hook; a `null` result keeps
the current pair. -/
def onKeyValueAux : List Plugin → String × Value → Except ParseErr (String × Value)
  | [], r => .ok r
  | p :: rest, r =>
    match p.onKeyValue with
    | none => onKeyValueAux rest r
    | some f =>
      match f r.1 r.2 with
      | .ok none => onKeyValueAux rest r
      | .ok (some r2) => onKeyValueAux rest r2
      | .error e => .error (.plugin p.name "ON_KEY_VALUE_FAILED" e)

/-- `onKeyValue(key, value, context)` -/
def PluginManager.onKeyValue (m : PluginManager) (key : String) (value : Value) :
    Except ParseErr (String × Value) :=
  onKeyValueAux m.parserPlugins (key, value)

/-- Loop body of `onBlockStart`: observational, in list order. -/
def onBlockStartAux : List Plugin → String → Except ParseErr Unit
  | [], _ => .ok ()
  | p :: rest, blockName =>
    match p.onBlockStart with
    | none => onBlockStartAux rest blockName
    | some f =>
      match f blockName with
      | .ok _ => onBlockStartAux rest blockName
      | .error e => .error (.plugin p.name "ON_BLOCK_START_FAILED" e)

/-- `onBlockStart(blockName, context)` -/
def PluginManager.onBlockStart (m : PluginManager) (blockName : String) :
    Except ParseErr Unit :=
  onBlockStartAux m.parserPlugins blockName

/-- Loop body of `onBlockEnd`: observational, in list order. -/
def onBlockEndAux : List Plugin → String → Except ParseErr Unit
  | [], _ => .ok ()
  | p :: rest, blockName =>
    match p.onBlockEnd with
    | none => onBlockEndAux rest blockName
    | some f =>
      match f blockName with
      | .ok _ => onBlockEndAux rest blockName
      | .error e => .error (.plugin p.name "ON_BLOCK_END_FAILED" e)

/-- `onBlockEnd(blockName, context)` -/
def PluginManager.onBlockEnd (m : PluginManager) (blockName : String) :
    Except ParseErr Unit :=
  onBlockEndAux m.parserPlugins blockName

/-- `handleBlockStart(line, lineNumber, stack, blockNames)`: extract the
block name, then in the current top frame run
`if (!current[name]) current[name] = []; current[name].push(newBlock)`;
push the new frame and the name. A truthy non-array already stored under
the name makes `push` throw a `TypeError`. The new (still empty) block
is appended to the parent's list when the block is closed, which is
observationally equivalent to JS appending the shared mutable object at
start: the parent frame is untouched while the block is open. -/
def handleBlockStart (line : String) (lineNumber : Nat) (stack : List Doc)
    (blockNames : List String) : Except ParseErr (List Doc × List String) :=
  let name := keywordRest "Begin" line
  if name = "" then
    .error (.dsl "Empty block name not allowed" (some lineNumber) (some line))
  else
    match stack with
    | [] => .error (.js "stack is empty")
    | cur :: rest =>
      match jsMapGet cur name with
      | none => .ok ([] :: jsMapSet cur name (.vlist []) :: rest, name :: blockNames)
      | some old =>
        if jsFalsy old then
          .ok ([] :: jsMapSet cur name (.vlist []) :: rest, name :: blockNames)
        else
          match old with
          | .vlist _ => .ok ([] :: cur :: rest, name :: blockNames)
          | _ => .error (.js "current[name].push is not a function")

/-- `handleBlockEnd(line, lineNumber, stack, blockNames)`: extract the
name, require an open block and an exact match with the innermost open
name, then pop both stacks. The finished frame is appended to the list
the matching `handleBlockStart` prepared in the parent frame (in JS the
shared object was pushed at block start and mutated in place). -/
def handleBlockEnd (line : String) (lineNumber : Nat) (stack : List Doc)
    (blockNames : List String) : Except ParseErr (List Doc × List String) :=
  let name := keywordRest "End" line
  if name = "" then
    .error (.dsl "Empty block name not allowed" (some lineNumber) (some line))
  else
    match blockNames with
    | [] => .error (.dsl "No open blocks to close" (some lineNumber) (some line))
    | last :: names =>
      if last ≠ name then
        .error (.dsl ("Mismatched End: expected \x27" ++ last ++ "\x27, got \x27" ++ name ++ "\x27")
          (some lineNumber) (some line))
      else
        match stack with
        | child :: parent :: rest =>
          match jsMapGet parent name with
          | some (.vlist l) =>
            .ok (jsMapSet parent name (.vlist (l ++ [.doc child])) :: rest, names)
          | _ => .error (.js "stack discipline violated")
        | _ => .error (.js "stack discipline violated")

/-- The mutable state of the `parseAuthorDSL` line loop. `stack` holds
the open frames with the innermost first (the document root is last);
`blockNames` holds the open block names with the innermost first. -/
structure ParseState where
  stack : List Doc
  blockNames : List String
  inMultiline : Bool
  multilineKey : Option String
  multilineBuffer : List String

/-- The state at loop entry: one empty root frame, no open names,
not inside a multiline. -/
def initState : ParseState := ⟨[[]], [], false, none, []⟩

/-- Run the `onBlockStart` hooks when a plugin manager is present. -/
def pipelineOnBlockStart (pm : Option PluginManager) (blockName : String) :
    Except ParseErr Unit :=
  match pm with
  | none => .ok ()
  | some m => m.onBlockStart blockName

/-- Run the `onBlockEnd` hooks when a plugin manager is present. -/
def pipelineOnBlockEnd (pm : Option PluginManager) (blockName : String) :
    Except ParseErr Unit :=
  match pm with
  | none => .ok ()
  | some m => m.onBlockEnd blockName

/-- The preprocessing step of `parseAuthorDSL`: the input is fed through
the `beforeParse` chain when a plugin manager is present, otherwise it is
used as is (`let processedInput = input; if (pluginManager)
processedInput = pluginManager.beforeParse(input)`). -/
def pipelineBeforeParse (pm : Option PluginManager) (input : String) :
    Except ParseErr String :=
  match pm with
  | none => .ok input
  | some m => m.beforeParse input

/-- One iteration of the `parseAuthorDSL` line loop. In multiline mode
only the closing marker is looked for, and on close the joined, trimmed
buffer is assigned directly with `assignValue` (no type processing and
no plugin hooks). Otherwise the trimmed line is classified as
blank/comment, `Begin`, `End`, or a key/value statement; a key/value
statement whose value opens a multiline switches the state, and any
other value runs through `processValue`, then through type plugins and
the `onKeyValue` chain when a manager is present (or is wrapped as the
literal `{type, value}` pair when absent). -/
def processLine (pm : Option PluginManager) (st : ParseState) (lineNumber : Nat)
    (rawLine : String) : Except ParseErr ParseState :=
  if st.inMultiline then
    match handleMultilineContent rawLine st.multilineBuffer with
    | (true, buf) =>
      match st.stack with
      | [] => .error (.js "stack is empty")
      | cur :: rest =>
        let joined := strTrim (strIntercalate "\n" buf)
        .ok { st with
          stack := assignValue cur (st.multilineKey.getD "") (.str joined) :: rest,
          inMultiline := false, multilineKey := none, multilineBuffer := [] }
    | (false, buf) => .ok { st with multilineBuffer := buf }
  else
    let line := strTrim rawLine
    if line = "" || strStartsWith line "#" then .ok st
    else if matchKeyword "Begin" line then
      match pipelineOnBlockStart pm (keywordRest "Begin" line) with
      | .error e => .error e
      | .ok _ =>
        match handleBlockStart line lineNumber st.stack st.blockNames with
        | .error e => .error e
        | .ok (s, n) => .ok { st with stack := s, blockNames := n }
    else if matchKeyword "End" line then
      match pipelineOnBlockEnd pm (keywordRest "End" line) with
      | .error e => .error e
      | .ok _ =>
        match handleBlockEnd line lineNumber st.stack st.blockNames with
        | .error e => .error e
        | .ok (s, n) => .ok { st with stack := s, blockNames := n }
    else
      match parseKeyValue line lineNumber with
      | .error e => .error e
      | .ok (key, value, type) =>
        if strStartsWith value "\"\"\"" then
          let rest := strDrop value 3
          .ok { st with inMultiline := true, multilineKey := some key,
                        multilineBuffer := if strLength rest > 0 then [rest] else [] }
        else
          match st.stack with
          | [] => .error (.js "stack is empty")
          | cur :: stackRest =>
            match pm with
            | none =>
              let processedValue := processValue value
              match type with
              | some t =>
                .ok { st with stack := assignValue cur key (.typed t processedValue) :: stackRest }
              | none =>
                .ok { st with stack := assignValue cur key processedValue :: stackRest }
            | some m =>
              match
                (match type with
                 | some t => m.processValue value (some t)
                 | none => .ok (processValue value)) with
              | .error e => .error e
              | .ok processedValue =>
                match m.onKeyValue key processedValue with
                | .error e => .error e
                | .ok r =>
                  .ok { st with stack := assignValue cur r.1 r.2 :: stackRest }

/-- Fold `processLine` over the numbered lines. -/
def runLines (pm : Option PluginManager) :
    List (Nat × String) → ParseState → Except ParseErr ParseState
  | [], st => .ok st
  | (n, l) :: rest, st =>
    match processLine pm st n l with
    | .error e => .error e
    | .ok st' => runLines pm rest st'

/-- `parseAuthorDSL(input, pluginManager?)`: validate the input, run the
`beforeParse` chain when a manager is present, split into lines and run
the line loop, then fail on unclosed blocks (naming all still-open
names, outermost first) or an unclosed multiline (naming the pending
key), and finally run the `afterParse` chain on the root document. -/
def parseAuthorDSL (input : String) (pm : Option PluginManager) :
    Except ParseErr Doc :=
  match validateInput input with
  | .error e => .error e
  | .ok _ =>
    match pipelineBeforeParse pm input with
    | .error e => .error e
    | .ok processedInput =>
      match runLines pm (numberLines 1 (splitLines processedInput)) initState with
      | .error e => .error e
      | .ok st =>
        if st.stack.length ≠ 1 then
          .error (.dsl ("Unclosed block(s): " ++ strIntercalate ", " st.blockNames.reverse)
            none none)
        else if st.inMultiline then
          .error (.dsl ("Unclosed multiline value for key: " ++ st.multilineKey.getD "null")
            none none)
        else
          match st.stack with
          | [root] =>
            match pm with
            | none => .ok root
            | some m => m.afterParse root
          | _ => .error (.js "unreachable")

/-- The structural relation the parser maintains between its two stacks:
one more open frame than open block names (the root frame has no name). -/
def stackInv (st : ParseState) : Prop :=
  st.stack.length = st.blockNames.length + 1

/-- A parse-hook plugin whose `onKeyValue` hook rewrites every pair to
use the key `R`. -/
def c3Rename : Plugin :=
  { Plugin.base with
    id := 1
    name := "R1"
    onKeyValue := some (fun _ v => .ok (some ("R", v))) }

/-- A manager holding only `c3Rename`. -/
def c3Manager : PluginManager :=
  registerOk PluginManager.empty c3Rename PluginOptions.default

/-- A formatter plugin for tag `x` that renders `one`. -/
def c5FmtOne : Plugin :=
  { Plugin.base with
    id := 1
    name := "F1"
    supportedFormats := some ["x"]
    format := some (fun _ _ => .ok "one") }

/-- A second formatter plugin for the same tag `x`, rendering `two`. -/
def c5FmtTwo : Plugin :=
  { Plugin.base with
    id := 2
    name := "F2"
    supportedFormats := some ["x"]
    format := some (fun _ _ => .ok "two") }

/-- A manager with `c5FmtOne` registered before `c5FmtTwo`. -/
def c5Manager : PluginManager :=
  registerOk (registerOk PluginManager.empty c5FmtOne PluginOptions.default)
    c5FmtTwo PluginOptions.default

/-- A type plugin handling tag `t`. -/
def c10TypeOne : Plugin :=
  { Plugin.base with
    id := 1
    name := "T1"
    supportedTypes := some ["t"]
    processValue := some (fun v ty => .ok (.typed ty (.str v))) }

/-- A second, later-registered type plugin for the same tag `t`. -/
def c10TypeTwo : Plugin :=
  { Plugin.base with
    id := 2
    name := "T2"
    supportedTypes := some ["t"]
    processValue := some (fun v ty => .ok (.typed ty (.vlist [.str v]))) }

/-- A manager with `c10TypeOne` registered before `c10TypeTwo`, so
`c10TypeTwo` currently handles tag `t`. -/
def c10Manager : PluginManager :=
  registerOk (registerOk PluginManager.empty c10TypeOne PluginOptions.default)
    c10TypeTwo PluginOptions.default

/-- A formatter plugin for tag `x` with the given identity and rendering
function. -/
def mkFormatterPlugin (i : Nat) (nm : String)
    (f : Doc → Option Value → Except String String) : Plugin :=
  { Plugin.base with
    id := i
    name := nm
    supportedFormats := some ["x"]
    format := some f }

/-- A parse-hook plugin implementing only `beforeParse`, with a hook that
never throws. -/
def mkBeforeParsePlugin (i : Nat) (nm : String) (f : String → String) : Plugin :=
  { Plugin.base with
    id := i
    name := nm
    beforeParse := some (fun s => .ok (f s)) }

/-- A validator plugin with the given `validate` behaviour. -/
def mkValidatorPlugin (i : Nat) (nm : String)
    (f : Doc → Except String (List String)) : Plugin :=
  { Plugin.base with
    id := i
    name := nm
    validate := some f }

/-- Register two plugins into a fresh manager, in order, with default
options (equal priority 0). -/
def registerTwo (p1 p2 : Plugin) : PluginManager :=
  registerOk (registerOk PluginManager.empty p1 PluginOptions.default)
    p2 PluginOptions.default

theorem jsMapGet_jsMapSet_self {α : Type} (l : List (String × α)) (k : String) (v : α) :
    jsMapGet (jsMapSet l k v) k = some v := by
  induction l with
  | nil => simp [jsMapSet, jsMapGet]
  | cons e rest ih =>
    obtain ⟨k', w⟩ := e
    by_cases h : k' = k <;> simp [jsMapSet, jsMapGet, h, ih]

theorem jsMapSet_jsMapSet_self {α : Type} (l : List (String × α)) (k : String) (v w : α) :
    jsMapSet (jsMapSet l k v) k w = jsMapSet l k w := by
  induction l with
  | nil => simp [jsMapSet]
  | cons e rest ih =>
    obtain ⟨k', u⟩ := e
    by_cases h : k' = k <;> simp [jsMapSet, h, ih]

theorem jsMapGet_jsMapDelete_self {α : Type} (l : List (String × α)) (k : String) :
    jsMapGet (jsMapDelete l k) k = none := by
  induction l with
  | nil => rfl
  | cons e rest ih =>
    obtain ⟨k', w⟩ := e
    by_cases h : k' = k
    · simpa [jsMapDelete, List.filter, h] using ih
    · simpa [jsMapDelete, List.filter, jsMapGet, h] using ih

theorem jsMapGet_jsMapDelete_none {α : Type} (l : List (String × α)) (k t : String)
    (h : jsMapGet l t = none) : jsMapGet (jsMapDelete l k) t = none := by
  induction l with
  | nil => rfl
  | cons e rest ih =>
    obtain ⟨k', w⟩ := e
    by_cases ht : k' = t
    · simp [jsMapGet, ht] at h
    · simp only [jsMapGet, ht, if_false] at h
      by_cases hk : k' = k
      · simpa [jsMapDelete, List.filter, hk] using ih h
      · simpa [jsMapDelete, List.filter, jsMapGet, hk, ht] using ih h

/-- C6: parsing a multiline statement joins the buffered body lines with
newlines and trims the result; `Bio@multiline` gets the plain string
with no type wrapper, with or without a plugin manager. -/
theorem C6_multiline_statement :
    parseAuthorDSL "Bio@multiline: \"\"\"\nline1\nline2\n\"\"\"" none =
      .ok [("Bio", Value.str "line1\nline2")] ∧
    parseAuthorDSL "Bio@multiline: \"\"\"\nline1\nline2\n\"\"\"" (some PluginManager.empty) =
      .ok [("Bio", Value.str "line1\nline2")] :=
  ⟨rfl, rfl⟩

/-- C9: any input that is empty after trimming makes `parseAuthorDSL`
fail with the `Input cannot be empty` `DSLParseError` (no line number),
before any line is processed and for any plugin manager. -/
theorem C9_empty_input (input : String) (pm : Option PluginManager)
    (h : strTrim input = "") :
    parseAuthorDSL input pm = .error (.dsl "Input cannot be empty" none none) := by
  have hv : validateInput input = .error (.dsl "Input cannot be empty" none none) := by
    unfold validateInput
    rw [h]
    rfl
  unfold parseAuthorDSL
  rw [hv]

/-- C9 witness: the whitespace-only input. -/
theorem C9_witness :
    strTrim "  \n " = "" ∧
    parseAuthorDSL "  \n " none = .error (.dsl "Input cannot be empty" none none) :=
  ⟨rfl, C9_empty_input "  \n " none rfl⟩

/-- C1 counterexample: with a plugin manager that has no handler for
`custom`, the line `K@custom: a, b` assigns the raw right-hand string,
not the `{type, value}` pair with the comma-processed value the claim
demands. -/
theorem C1_counterexample :
    parseAuthorDSL "K@custom: a, b" (some PluginManager.empty) =
      .ok [("K", Value.str "a, b")] ∧
    Value.str "a, b" ≠ Value.typed "custom" (Value.vlist [Value.str "a", Value.str "b"]) :=
  ⟨rfl, fun h => nomatch h⟩

/-- C1 amended: when `parseAuthorDSL` runs without a plugin manager, an
unhandled type annotation yields the literal `{type, value}` pair with
the comma/quote-processed value; when it runs with a plugin manager and
no handler is registered for the tag, the manager's `processValue`
returns the raw right-hand string unchanged, so the key is assigned the
raw unprocessed string with no `{type, value}` wrapper. -/
theorem C1_amended_unhandled_type (m : PluginManager) (v t : String)
    (hnone : jsMapGet m.typePlugins t = none) :
    m.processValue v (some t) = .ok (.str v) ∧
    parseAuthorDSL "K@custom: a, b" none =
      .ok [("K", Value.typed "custom" (Value.vlist [Value.str "a", Value.str "b"]))] ∧
    parseAuthorDSL "K@custom: a, b" (some PluginManager.empty) =
      .ok [("K", Value.str "a, b")] := by
  refine ⟨?_, rfl, rfl⟩
  unfold PluginManager.processValue
  by_cases h : t = ""
  · simp [h]
  · simp [h, hnone]

/-- C1 witness: the empty manager has no handler for `custom`, and the
amended behaviour holds there. -/
theorem C1_witness :
    jsMapGet PluginManager.empty.typePlugins "custom" = none ∧
    PluginManager.empty.processValue "a, b" (some "custom") = .ok (.str "a, b") :=
  ⟨rfl, (C1_amended_unhandled_type PluginManager.empty "a, b" "custom" rfl).1⟩

/-- C5 counterexample: with two formatter plugins for tag `x` registered
in sequence, `formatData` renders with the first-registered plugin, not
the second as the claim demands. -/
theorem C5_counterexample :
    c5Manager.formatData [] "x" none = .ok "one" ∧ ("one" : String) ≠ "two" :=
  ⟨rfl, by decide⟩

/-- C5 amended: registering a second formatter plugin for the same tag
appends it after the first (no replacement), and `formatData` selects
the first registered plugin supporting the tag, so the earlier-registered
plugin is the one invoked. -/
theorem C5_amended_first_formatter_wins
    (f1 f2 : Doc → Option Value → Except String String) (d : Doc)
    (options : Option Value) :
    (registerTwo (mkFormatterPlugin 1 "F1" f1) (mkFormatterPlugin 2 "F2" f2)).formatterPlugins
      = [mkFormatterPlugin 1 "F1" f1, mkFormatterPlugin 2 "F2" f2] ∧
    (registerTwo (mkFormatterPlugin 1 "F1" f1) (mkFormatterPlugin 2 "F2" f2)).formatData d "x" options
      = (match f1 d options with
         | .ok s => .ok s
         | .error e => .error (.plugin "F1" "FORMAT_FAILED" e)) :=
  ⟨rfl, rfl⟩

/-- C7: for two parse-hook plugins registered in sequence with equal
priority, the `beforeParse` chain feeds the first hook's output to the
second, producing `P2(P1(rawInput))`. -/
theorem C7_beforeParse_chain (f g : String → String) (input : String) :
    (registerTwo (mkBeforeParsePlugin 1 "P1" f) (mkBeforeParsePlugin 2 "P2" g)).beforeParse input
      = .ok (g (f input)) :=
  rfl

/-- C8: `validateData` concatenates the validators' warning lists in
registry order, and a throwing validator makes the whole call fail with
a `PluginError` carrying that plugin's name and the
`VALIDATE_DATA_FAILED` invocation-point code, not a partial list. -/
theorem C8_validateData_warnings (F G : Doc → Except String (List String)) (d : Doc) :
    (registerTwo (mkValidatorPlugin 1 "V1" F) (mkValidatorPlugin 2 "V2" G)).validateData d
      = (match F d with
         | .error e => .error (.plugin "V1" "VALIDATE_DATA_FAILED" e)
         | .ok w1 =>
           match G d with
           | .error e => .error (.plugin "V2" "VALIDATE_DATA_FAILED" e)
           | .ok w2 => .ok (w1 ++ w2)) := by
  show validateDataAux [mkValidatorPlugin 1 "V1" F, mkValidatorPlugin 2 "V2" G] d [] = _
  cases hF : F d with
  | error e => simp [validateDataAux, mkValidatorPlugin, Plugin.base, hF]
  | ok w1 =>
    cases hG : G d with
    | error e => simp [validateDataAux, mkValidatorPlugin, Plugin.base, hF, hG]
    | ok w2 => simp [validateDataAux, mkValidatorPlugin, Plugin.base, hF, hG]

theorem foldl_jsMapDelete_none (ts : List String) (tp : List (String × Plugin))
    (t : String) (h : jsMapGet tp t = none) :
    jsMapGet (ts.foldl (fun acc x => jsMapDelete acc x) tp) t = none := by
  induction ts generalizing tp with
  | nil => exact h
  | cons a rest ih => exact ih _ (jsMapGet_jsMapDelete_none _ _ _ h)

theorem foldl_jsMapDelete_mem (ts : List String) (tp : List (String × Plugin))
    (t : String) (h : t ∈ ts) :
    jsMapGet (ts.foldl (fun acc x => jsMapDelete acc x) tp) t = none := by
  induction ts generalizing tp with
  | nil => cases h
  | cons a rest ih =>
    simp only [List.foldl_cons]
    rcases List.mem_cons.mp h with heq | hmem
    · subst heq
      exact foldl_jsMapDelete_none _ _ _ (jsMapGet_jsMapDelete_self _ _)
    · exact ih _ hmem

theorem unregister_typePlugins_eq (m : PluginManager) (p : Plugin)
    (opts : PluginOptions)
    (hreg : jsMapGet m.plugins p.name = some (p, opts))
    (htype : isTypePlugin p = true) :
    (m.unregister p.name).typePlugins = unregisterTypePluginAux m.typePlugins p := by
  unfold PluginManager.unregister
  rw [hreg]
  simp only [htype, if_true]
  split_ifs <;> rfl

/-- C10: unregistering a type plugin deletes the type-handler map entry
for every tag it declares, regardless of which plugin currently handles
the tag — so a shared tag loses its dispatch even though the
later-registered handler is still registered. -/
theorem C10_unregister_removes_shared_tags (m : PluginManager) (p : Plugin)
    (opts : PluginOptions) (t : String)
    (hreg : jsMapGet m.plugins p.name = some (p, opts))
    (htype : isTypePlugin p = true)
    (ht : t ∈ p.supportedTypes.getD []) :
    jsMapGet (m.unregister p.name).typePlugins t = none := by
  rw [unregister_typePlugins_eq m p opts hreg htype]
  exact foldl_jsMapDelete_mem _ _ _ ht

/-- C10 witness: unregistering `T1` leaves `T2` registered but removes
the shared tag `t` from the type-handler map. -/
theorem C10_witness :
    (c10Manager.unregister "T1").isRegistered "T2" = true ∧
    jsMapGet (c10Manager.unregister "T1").typePlugins "t" = none :=
  ⟨rfl, C10_unregister_removes_shared_tags c10Manager c10TypeOne
    PluginOptions.default "t" rfl rfl (by simp [c10TypeOne, Plugin.base])⟩

/-- C2 counterexample: when the first stored value is the empty string
(`A:` with an empty right-hand side), a second occurrence of the key
overwrites it instead of promoting to the two-element list the claim
demands for every value shape. -/
theorem C2_counterexample :
    parseAuthorDSL "A:\nA: 2" none = .ok [("A", Value.str "2")] ∧
    Value.str "2" ≠ Value.vlist [Value.str "", Value.str "2"] :=
  ⟨rfl, fun h => nomatch h⟩

/-- C2 amended: the collision rule holds for scalar values whose first
stored value is a non-empty string — the second occurrence promotes to
`[first, second]` and the third appends, so `A: 1`, `A: 2`, `A: 3`
yields `A = [1, 2, 3]` — but a stored empty string is overwritten by the
next occurrence (JS falsiness in `assignValue`), and a block is stored
as a one-element list already at its first occurrence rather than as a
single value. -/
theorem C2_amended_collision_rule (obj : Doc) (key : String) (s1 s2 s3 : String)
    (habsent : jsMapGet obj key = none) (hs1 : s1 ≠ "") :
    assignValue (assignValue (assignValue obj key (.str s1)) key (.str s2)) key (.str s3)
      = jsMapSet obj key (.vlist [.str s1, .str s2, .str s3]) ∧
    assignValue (assignValue obj key (.str "")) key (.str s2)
      = jsMapSet obj key (.str s2) ∧
    parseAuthorDSL "A: 1\nA: 2\nA: 3" none
      = .ok [("A", Value.vlist [Value.str "1", Value.str "2", Value.str "3"])] ∧
    parseAuthorDSL "Begin P\nEnd P" none = .ok [("P", Value.vlist [Value.doc []])] := by
  refine ⟨?_, ?_, rfl, rfl⟩
  · have h1 : assignValue obj key (.str s1) = jsMapSet obj key (.str s1) := by
      unfold assignValue
      rw [habsent]
    rw [h1]
    have h2 : assignValue (jsMapSet obj key (.str s1)) key (.str s2)
        = jsMapSet obj key (.vlist [.str s1, .str s2]) := by
      unfold assignValue
      rw [jsMapGet_jsMapSet_self]
      simp [jsFalsy, hs1, jsMapSet_jsMapSet_self]
    rw [h2]
    unfold assignValue
    rw [jsMapGet_jsMapSet_self]
    simp [jsFalsy, jsMapSet_jsMapSet_self]
  · have h1 : assignValue obj key (.str "") = jsMapSet obj key (.str "") := by
      unfold assignValue
      rw [habsent]
    rw [h1]
    unfold assignValue
    rw [jsMapGet_jsMapSet_self]
    simp [jsFalsy, jsMapSet_jsMapSet_self]

/-- C2 witness: the three-occurrence sequence at a fresh key with a
non-empty first value. -/
theorem C2_witness :
    jsMapGet ([] : Doc) "A" = none ∧ ("1" : String) ≠ "" ∧
    assignValue (assignValue (assignValue ([] : Doc) "A" (.str "1")) "A" (.str "2")) "A" (.str "3")
      = jsMapSet [] "A" (.vlist [.str "1", .str "2", .str "3"]) :=
  ⟨rfl, by decide, (C2_amended_collision_rule [] "A" "1" "2" "3" rfl (by decide)).1⟩

/-- C3 counterexample: with a registered `onKeyValue` hook that renames
every key to `R`, a scalar statement is renamed but a completed
multiline value keeps its key — the hooks do not run on the multiline
assignment, contradicting the claim that they run exactly as for a
single-line scalar. -/
theorem C3_counterexample :
    parseAuthorDSL "B: \"\"\"\nhi\n\"\"\"" (some c3Manager) = .ok [("B", Value.str "hi")] ∧
    parseAuthorDSL "B: hi" (some c3Manager) = .ok [("R", Value.str "hi")] ∧
    (Except.ok [("B", Value.str "hi")] : Except ParseErr Doc) ≠ .ok [("R", Value.str "hi")] := by
  refine ⟨rfl, rfl, ?_⟩
  simp

/-- C3 amended: when the closing multiline marker is seen, the joined
and trimmed multiline string is assigned to the pending key directly
with `assignValue`; the plugin manager is never consulted in the
multiline state, so neither type processing nor the `onKeyValue` chain
runs on multiline values, unlike single-line scalars. -/
theorem C3_amended_multiline_bypass (pm : Option PluginManager) (st : ParseState)
    (n : Nat) (line : String) (hin : st.inMultiline = true) :
    processLine pm st n line = processLine none st n line ∧
    (∀ cur rest buf, st.stack = cur :: rest →
      handleMultilineContent line st.multilineBuffer = (true, buf) →
      processLine pm st n line = .ok { st with
        stack := assignValue cur (st.multilineKey.getD "")
          (.str (strTrim (strIntercalate "\n" buf))) :: rest,
        inMultiline := false, multilineKey := none, multilineBuffer := [] }) := by
  constructor
  · simp [processLine, hin]
  · intro cur rest buf hstack hclose
    simp [processLine, hin, hclose, hstack]

/-- C3 witness: the concrete closing step with the rename-hook manager
present, showing the direct `assignValue` assignment. -/
theorem C3_witness :
    processLine (some c3Manager)
        ⟨[[]], [], true, some "B", ["hi"]⟩ 3 "\"\"\""
      = .ok ⟨[assignValue [] "B" (.str (strTrim (strIntercalate "\n" ["hi", ""])))],
          [], false, none, []⟩ :=
  (C3_amended_multiline_bypass (some c3Manager) ⟨[[]], [], true, some "B", ["hi"]⟩
    3 "\"\"\"" rfl).2 [] [] ["hi", ""] rfl rfl

theorem handleBlockStart_lengths (line : String) (n : Nat) (stack : List Doc)
    (names : List String) (s2 : List Doc) (n2 : List String)
    (h : handleBlockStart line n stack names = .ok (s2, n2)) :
    s2.length = stack.length + 1 ∧ n2.length = names.length + 1 := by
  simp only [handleBlockStart] at h
  split at h
  · cases h
  · split at h
    · cases h
    · split at h
      · injection h with h
        injection h with h1 h2
        subst h1; subst h2
        simp
      · split at h
        · injection h with h
          injection h with h1 h2
          subst h1; subst h2
          simp
        · split at h
          · injection h with h
            injection h with h1 h2
            subst h1; subst h2
            simp
          · cases h

theorem handleBlockEnd_lengths (line : String) (n : Nat) (stack : List Doc)
    (names : List String) (s2 : List Doc) (n2 : List String)
    (h : handleBlockEnd line n stack names = .ok (s2, n2)) :
    stack.length = s2.length + 1 ∧ names.length = n2.length + 1 := by
  simp only [handleBlockEnd] at h
  split at h
  · cases h
  · split at h
    · cases h
    · split at h
      · cases h
      · split at h
        · split at h
          · injection h with h
            injection h with h1 h2
            subst h1; subst h2
            simp
          · cases h
        · cases h

theorem processLine_stackInv (pm : Option PluginManager) (st : ParseState) (n : Nat)
    (line : String) (st2 : ParseState) (hinv : stackInv st)
    (h : processLine pm st n line = .ok st2) : stackInv st2 := by
  unfold stackInv at hinv ⊢
  simp only [processLine] at h
  split at h
  · -- InMultiline
    split at h
    · -- closing marker found
      split at h
      · cases h
      next cur rest heq =>
        injection h with h
        subst h
        simp only [heq, List.length_cons] at hinv ⊢
        omega
    · -- still buffering
      injection h with h
      subst h
      simpa using hinv
  · -- Normal
    split at h
    · -- blank or comment
      injection h with h
      subst h
      exact hinv
    · split at h
      · -- Begin
        split at h
        · cases h
        · split at h
          · cases h
          next s2 n2 heq =>
            injection h with h
            subst h
            obtain ⟨h1, h2⟩ := handleBlockStart_lengths _ _ _ _ _ _ heq
            show s2.length = n2.length + 1
            omega
      · split at h
        · -- End
          split at h
          · cases h
          · split at h
            · cases h
            next s2 n2 heq =>
              injection h with h
              subst h
              obtain ⟨h1, h2⟩ := handleBlockEnd_lengths _ _ _ _ _ _ heq
              show s2.length = n2.length + 1
              omega
        · -- key/value
          split at h
          · cases h
          · split at h
            · -- multiline opener
              injection h with h
              subst h
              simpa using hinv
            · -- plain value
              split at h
              · cases h
              next cur rest heq =>
                split at h
                · -- no plugin manager
                  split at h
                  · injection h with h
                    subst h
                    simp only [heq, List.length_cons] at hinv ⊢
                    omega
                  · injection h with h
                    subst h
                    simp only [heq, List.length_cons] at hinv ⊢
                    omega
                · -- with plugin manager
                  split at h
                  · cases h
                  · split at h
                    · cases h
                    · injection h with h
                      subst h
                      simp only [heq, List.length_cons] at hinv ⊢
                      omega

theorem runLines_stackInv (pm : Option PluginManager) (lines : List (Nat × String))
    (st st2 : ParseState) (hinv : stackInv st)
    (h : runLines pm lines st = .ok st2) : stackInv st2 := by
  induction lines generalizing st with
  | nil =>
    simp only [runLines] at h
    injection h with h
    subst h
    exact hinv
  | cons e rest ih =>
    obtain ⟨num, l⟩ := e
    simp only [runLines] at h
    split at h
    · cases h
    next st1 heq => exact ih st1 (processLine_stackInv _ _ _ _ _ hinv heq) h

theorem parseAuthorDSL_ok_final (input : String) (pm : Option PluginManager) (d : Doc)
    (h : parseAuthorDSL input pm = .ok d) :
    ∃ txt st2, pipelineBeforeParse pm input = .ok txt ∧
      runLines pm (numberLines 1 (splitLines txt)) initState = .ok st2 ∧
      st2.stack.length = 1 ∧ st2.blockNames = [] := by
  simp only [parseAuthorDSL] at h
  split at h
  · cases h
  · split at h
    · cases h
    next txt heq2 =>
      split at h
      · cases h
      next st2 heq3 =>
        split at h
        · cases h
        next hlen =>
          split at h
          · cases h
          next hmul =>
            have hinv : stackInv st2 :=
              runLines_stackInv pm _ initState st2 rfl heq3
            have hlen1 : st2.stack.length = 1 := by omega
            have hnames : st2.blockNames = [] := by
              have : st2.blockNames.length = 0 := by
                unfold stackInv at hinv
                omega
              exact List.length_eq_zero.mp this
            exact ⟨txt, st2, heq2, heq3, hlen1, hnames⟩

/-- C4 counterexample: the two stacks never have equal depth — already
the initial state has one frame and zero open names, and a completed
one-line parse ends with depths `(1, 0)`, contradicting the claimed
`equal depth ≥ 1` invariant. -/
theorem C4_counterexample :
    initState.stack.length = 1 ∧ initState.blockNames.length = 0 ∧
    (runLines none [(1, "A: 1")] initState).map
        (fun st => (st.stack.length, st.blockNames.length)) = .ok (1, 0) :=
  ⟨rfl, rfl, rfl⟩

/-- C4 amended: at every step the frame stack is exactly one deeper than
the open-block-name stack (the root frame carries no name): the relation
holds initially, is preserved by every successful `processLine` step and
by the whole line loop, and a successful parse's own line loop — run on
the text its `beforeParse` preprocessing produced — ends with the frame
stack at depth 1 and the name stack empty (otherwise parsing fails). -/
theorem C4_amended_stack_depths :
    stackInv initState ∧
    (∀ pm st n line st2, stackInv st → processLine pm st n line = .ok st2 → stackInv st2) ∧
    (∀ pm lines st st2, stackInv st → runLines pm lines st = .ok st2 → stackInv st2) ∧
    (∀ input pm d, parseAuthorDSL input pm = .ok d →
      ∃ txt st2, pipelineBeforeParse pm input = .ok txt ∧
        runLines pm (numberLines 1 (splitLines txt)) initState = .ok st2 ∧
        st2.stack.length = 1 ∧ st2.blockNames = []) :=
  ⟨rfl, processLine_stackInv, runLines_stackInv, parseAuthorDSL_ok_final⟩

/-- C4 witness: the invariant at the initial state, one concrete
successful step, and the final depths of a concrete successful parse. -/
theorem C4_witness :
    stackInv initState ∧
    (∃ txt st2, pipelineBeforeParse none "A: 1" = .ok txt ∧
      runLines none (numberLines 1 (splitLines txt)) initState = .ok st2 ∧
      st2.stack.length = 1 ∧ st2.blockNames = []) :=
  ⟨C4_amended_stack_depths.1,
   C4_amended_stack_depths.2.2.2 "A: 1" none [("A", Value.str "1")] rfl⟩
